import Mathlib

/-!
Shallow embedding of the Live Transfers Exchange backend
(`src/main.py`, `src/schemas.py`).

Modelling conventions:
* MongoDB collections are lists of `(id, document)` pairs in insertion
  order; `find_one` is the first match, `update_one` patches the first
  document whose `_id` matches, `create_document` appends a fresh id.
* ObjectId strings are modelled by `idOf n` (a string of length `n`),
  generated from a per-store counter `next_id`; distinct counter values
  give distinct id strings.
* Python `float` amounts are modelled as `ℚ`; `round(x, 2)` is `round2`.
* Python `int` fields are modelled as `ℤ`.
* `HTTPException` with status 400 is `Err.validation`, status 404 is
  `Err.notFound`; each handler returns its possibly-updated store
  alongside the result.
* Pydantic `Literal` string enums become inductive types; the schema
  constraints (`amount > 0`, `price_per_call ≥ 35`) are request-parsing
  concerns and are not re-checked when the handler itself builds a model
  instance, matching the handler-level code paths.
-/

inductive Role
  | buyer
  | seller
  | admin
deriving DecidableEq

inductive TxType
  | credit
  | debit
deriving DecidableEq

inductive Status
  | draft
  | pending_acceptance
  | awaiting_admin
  | active
  | paused
  | depleted
  | archived
deriving DecidableEq

inductive AcceptStatus
  | accepted
  | rejected
deriving DecidableEq

inductive Disposition
  | completed
  | no_answer
  | busy
  | failed
  | short
deriving DecidableEq

structure User where
  name : String
  email : String
  role : Role
  company : Option String := none
  phone : Option String := none
  is_active : Bool := true
deriving DecidableEq

structure WalletTransaction where
  user_id : String
  «type» : TxType
  amount : ℚ
  memo : Option String := none
  campaign_id : Option String := none
  call_id : Option String := none
deriving DecidableEq

structure Campaign where
  buyer_id : String
  vertical : String
  price_per_call : ℚ
  daily_cap : ℤ
  states : List String
  time_start : String
  time_end : String
  transfer_number : Option String := none
  status : Status := Status.pending_acceptance
deriving DecidableEq

structure SellerAcceptance where
  campaign_id : String
  seller_id : String
  status : AcceptStatus := AcceptStatus.accepted
deriving DecidableEq

structure RoutingAssignment where
  campaign_id : String
  seller_ids : List String
  did_number : String
deriving DecidableEq

structure CallRecord where
  campaign_id : String
  buyer_id : String
  seller_id : Option String := none
  did_number : Option String := none
  caller : Option String := none
  called : Option String := none
  duration_seconds : ℤ := 0
  billable_threshold : ℤ := 90
  billable : Bool := false
  recording_url : Option String := none
  disposition : Disposition := Disposition.completed
deriving DecidableEq

structure Notification where
  user_id : String
  message : String
  read : Bool := false
deriving DecidableEq

/-- The document store: one list of `(id, doc)` pairs per collection,
plus the counter from which fresh ids are minted. -/
structure DB where
  user : List (String × User) := []
  wallettransaction : List (String × WalletTransaction) := []
  campaign : List (String × Campaign) := []
  selleracceptance : List (String × SellerAcceptance) := []
  routingassignment : List (String × RoutingAssignment) := []
  callrecord : List (String × CallRecord) := []
  notification : List (String × Notification) := []
  next_id : Nat := 0
deriving DecidableEq

/-- Fresh ObjectId strings: the id minted at counter value `n` is the
string of `n` letters x, so distinct counter values give distinct ids. -/
def idOf (n : Nat) : String := String.mk (List.replicate n 'x')

/-- `find_one(collection, filter)`: first document matching the filter. -/
def find_one {α : Type} (l : List (String × α)) (p : String × α → Bool) :
    Option (String × α) :=
  l.find? p

/-- `update_one(collection, {"_id": i}, {"$set": ...})`: patch the first
document whose id is `i`. -/
def update_one {α : Type} : List (String × α) → String → (α → α) → List (String × α)
  | [], _, _ => []
  | x :: xs, i, f => if x.1 = i then (x.1, f x.2) :: xs else x :: update_one xs i f

def DB.insert_wallettransaction (db : DB) (t : WalletTransaction) : String × DB :=
  (idOf db.next_id,
   { db with wallettransaction := db.wallettransaction ++ [(idOf db.next_id, t)],
             next_id := db.next_id + 1 })

def DB.insert_campaign (db : DB) (c : Campaign) : String × DB :=
  (idOf db.next_id,
   { db with campaign := db.campaign ++ [(idOf db.next_id, c)],
             next_id := db.next_id + 1 })

def DB.insert_selleracceptance (db : DB) (a : SellerAcceptance) : String × DB :=
  (idOf db.next_id,
   { db with selleracceptance := db.selleracceptance ++ [(idOf db.next_id, a)],
             next_id := db.next_id + 1 })

def DB.insert_routingassignment (db : DB) (r : RoutingAssignment) : String × DB :=
  (idOf db.next_id,
   { db with routingassignment := db.routingassignment ++ [(idOf db.next_id, r)],
             next_id := db.next_id + 1 })

def DB.insert_callrecord (db : DB) (c : CallRecord) : String × DB :=
  (idOf db.next_id,
   { db with callrecord := db.callrecord ++ [(idOf db.next_id, c)],
             next_id := db.next_id + 1 })

def DB.insert_notification (db : DB) (n : Notification) : String × DB :=
  (idOf db.next_id,
   { db with notification := db.notification ++ [(idOf db.next_id, n)],
             next_id := db.next_id + 1 })

/-- Python `round(x, 2)` on the model's exact rationals. -/
def round2 (q : ℚ) : ℚ := (round (q * 100) : ℤ) / 100

/-- The loop body of `get_balance`: fold a transaction list, adding
credit amounts and subtracting everything else, then round to 2 decimal
places. -/
def ledger_balance (l : List (String × WalletTransaction)) (user_id : String) : ℚ :=
  round2 ((l.filter (fun t => t.2.user_id == user_id)).foldl
    (fun b t =>
      match t.2.«type» with
      | TxType.credit => b + t.2.amount
      | TxType.debit => b - t.2.amount) 0)

/-- `get_balance(user_id)` from `src/main.py`: recompute the balance
from the `wallettransaction` collection. -/
def get_balance (db : DB) (user_id : String) : ℚ :=
  ledger_balance db.wallettransaction user_id

inductive Err
  | validation (detail : String)
  | notFound (detail : String)
deriving DecidableEq

structure TopUp where
  user_id : String
  amount : ℚ
deriving DecidableEq

structure AcceptPayload where
  seller_id : String
  status : AcceptStatus := AcceptStatus.accepted
deriving DecidableEq

structure TransferNumberPayload where
  transfer_number : String
deriving DecidableEq

structure CallLogPayload where
  campaign_id : String
  seller_id : Option String := none
  did_number : Option String := none
  caller : Option String := none
  called : Option String := none
  duration_seconds : ℤ
  recording_url : Option String := none
  threshold : ℤ := 90
deriving DecidableEq

/-- Append one notification per id in `ids`, all with the same message
(the notification fan-out loops of `create_campaign` and
`assign_routing`). -/
def notify_each (db : DB) (ids : List String) (message : String) : DB :=
  ids.foldl (fun acc sid => (acc.insert_notification { user_id := sid, message := message }).2) db

/-- `POST /wallet/topup`. -/
def wallet_topup (db : DB) (payload : TopUp) : Except Err (String × ℚ) × DB :=
  if payload.amount < 50 then
    (Except.error (Err.validation ("Minimum top-up is $50")), db)
  else
    match find_one db.user (fun u => u.1 == payload.user_id) with
    | none => (Except.error (Err.notFound ("User not found")), db)
    | some _ =>
      let tx : WalletTransaction :=
        { user_id := payload.user_id, «type» := TxType.credit,
          amount := payload.amount, memo := some ("Account funding") }
      let r := db.insert_wallettransaction tx
      (Except.ok (r.1, get_balance r.2 payload.user_id), r.2)

/-- `POST /campaigns`. -/
def create_campaign (db : DB) (campaign : Campaign) : Except Err String × DB :=
  match find_one db.user (fun u => u.1 == campaign.buyer_id) with
  | none => (Except.error (Err.validation ("Invalid buyer")), db)
  | some buyer =>
    if buyer.2.role ≠ Role.buyer then
      (Except.error (Err.validation ("Invalid buyer")), db)
    else if campaign.price_per_call < 35 then
      (Except.error (Err.validation ("Minimum price per call is $35")), db)
    else
      let r := db.insert_campaign campaign
      let sellers := r.2.user.filter (fun u => u.2.role == Role.seller)
      let db2 := notify_each r.2 (sellers.map (fun s => s.1))
        ("New campaign available: " ++ campaign.vertical)
      (Except.ok r.1, db2)

/-- The acceptance upsert block of `accept_campaign`: overwrite the
status of the existing record for this `(campaign_id, seller_id)` pair,
or insert a new record. -/
def upsert_acceptance (db : DB) (campaign_id seller_id : String) (status : AcceptStatus) : DB :=
  match find_one db.selleracceptance
      (fun a => a.2.campaign_id == campaign_id && a.2.seller_id == seller_id) with
  | some existing =>
    { db with selleracceptance :=
        (update_one db.selleracceptance existing.1
          (fun a => { a with status := status })) }
  | none =>
    (db.insert_selleracceptance
      { campaign_id := campaign_id, seller_id := seller_id, status := status }).2

/-- `POST /campaigns/{campaign_id}/accept`. -/
def accept_campaign (db : DB) (campaign_id : String) (payload : AcceptPayload) :
    Except Err Unit × DB :=
  match find_one db.campaign (fun c => c.1 == campaign_id) with
  | none => (Except.error (Err.notFound ("Campaign not found")), db)
  | some camp =>
    match find_one db.user (fun u => u.1 == payload.seller_id) with
    | none => (Except.error (Err.validation ("Invalid seller")), db)
    | some seller =>
      if seller.2.role ≠ Role.seller then
        (Except.error (Err.validation ("Invalid seller")), db)
      else
        let db1 := upsert_acceptance db campaign_id payload.seller_id payload.status
        let db2 := (db1.insert_notification
          { user_id := camp.2.buyer_id,
            message := "A seller responded to your campaign." }).2
        (Except.ok (), db2)

/-- `POST /campaigns/{campaign_id}/transfer-number`. -/
def set_transfer_number (db : DB) (campaign_id : String) (payload : TransferNumberPayload) :
    Except Err Unit × DB :=
  match find_one db.campaign (fun c => c.1 == campaign_id) with
  | none => (Except.error (Err.notFound ("Campaign not found")), db)
  | some camp =>
    let db1 := { db with campaign :=
      (update_one db.campaign camp.1
        (fun c => { c with transfer_number := some payload.transfer_number,
                           status := Status.awaiting_admin })) }
    let db2 := (db1.insert_notification
      { user_id := "admin",
        message := "Campaign " ++ campaign_id ++ " ready for routing" }).2
    (Except.ok (), db2)

/-- The routing upsert block of `assign_routing`: the filter uses the
path campaign id, but the stored document is the request body, whose own
`campaign_id` field is written as-is. -/
def upsert_routing (db : DB) (campaign_id : String) (routing : RoutingAssignment) : DB :=
  match find_one db.routingassignment (fun r => r.2.campaign_id == campaign_id) with
  | some existing =>
    { db with routingassignment :=
        (update_one db.routingassignment existing.1 (fun _ => routing)) }
  | none => (db.insert_routingassignment routing).2

/-- `POST /campaigns/{campaign_id}/assign-routing`. -/
def assign_routing (db : DB) (campaign_id : String) (routing : RoutingAssignment) :
    Except Err Status × DB :=
  match find_one db.campaign (fun c => c.1 == campaign_id) with
  | none => (Except.error (Err.notFound ("Campaign not found")), db)
  | some camp =>
    let db1 := upsert_routing db campaign_id routing
    let buyer_id := camp.2.buyer_id
    let bal := get_balance db1 buyer_id
    let new_status := if bal ≥ 50 then Status.active else Status.depleted
    let db2 := { db1 with campaign :=
      (update_one db1.campaign camp.1 (fun c => { c with status := new_status })) }
    let db3 := (db2.insert_notification
      { user_id := buyer_id, message := "Your campaign routing is configured." }).2
    let db4 := notify_each db3 routing.seller_ids ("You have been assigned to a campaign.")
    (Except.ok new_status, db4)

/-- `POST /calls/log`. -/
def log_call (db : DB) (payload : CallLogPayload) : Except Err (String × Bool) × DB :=
  match find_one db.campaign (fun c => c.1 == payload.campaign_id) with
  | none => (Except.error (Err.notFound ("Campaign not found")), db)
  | some camp =>
    let buyer_id := camp.2.buyer_id
    let billable : Bool := decide (payload.duration_seconds ≥ max 60 payload.threshold)
    let record : CallRecord :=
      { campaign_id := payload.campaign_id
        buyer_id := buyer_id
        seller_id := payload.seller_id
        did_number := payload.did_number
        caller := payload.caller
        called := payload.called
        duration_seconds := payload.duration_seconds
        billable_threshold := payload.threshold
        billable := billable
        recording_url := payload.recording_url
        disposition :=
          if billable then Disposition.completed
          else if payload.duration_seconds > 0 then Disposition.short
          else Disposition.failed }
    let r := db.insert_callrecord record
    let call_id := r.1
    let db1 := r.2
    if billable then
      let price := camp.2.price_per_call
      let tx : WalletTransaction :=
        { user_id := buyer_id, «type» := TxType.debit, amount := price,
          memo := some ("Billable call"),
          campaign_id := some payload.campaign_id, call_id := some call_id }
      let db2 := (db1.insert_wallettransaction tx).2
      let bal := get_balance db2 buyer_id
      if bal < 50 then
        let db3 := { db2 with campaign :=
          (update_one db2.campaign camp.1 (fun c => { c with status := Status.depleted })) }
        let db4 := (db3.insert_notification
          { user_id := buyer_id,
            message := "Balance low: campaign paused. Please add funds." }).2
        (Except.ok (call_id, billable), db4)
      else
        (Except.ok (call_id, billable), db2)
    else
      (Except.ok (call_id, billable), db1)

/-- Sum of the credit amounts a user's ledger holds, written after the
spec sentence "returns Σcredits − Σdebits". -/
def sum_credits (db : DB) (user_id : String) : ℚ :=
  ((db.wallettransaction.filter
      (fun t => t.2.«type» == TxType.credit && t.2.user_id == user_id)).map
    (fun t => t.2.amount)).sum

/-- Sum of the debit amounts a user's ledger holds. -/
def sum_debits (db : DB) (user_id : String) : ℚ :=
  ((db.wallettransaction.filter
      (fun t => t.2.«type» == TxType.debit && t.2.user_id == user_id)).map
    (fun t => t.2.amount)).sum

def sampleBuyer : User :=
  { name := "Pat", email := "pat@example.com", role := Role.buyer }

def pausedCamp : Campaign :=
  { buyer_id := "x", vertical := "Solar", price_per_call := 35, daily_cap := 5,
    states := ["CA"], time_start := "09:00", time_end := "17:00",
    status := Status.paused }

def credit60 : WalletTransaction :=
  { user_id := "x", «type» := TxType.credit, amount := 60 }

/-- One buyer with a 60-dollar ledger and one paused campaign priced at
35, so a single billable call drops the balance to 25. -/
def lowDB : DB :=
  { user := [("x", sampleBuyer)],
    campaign := [("xx", pausedCamp)],
    wallettransaction := [("xxx", credit60)],
    next_id := 5 }

def lowCall : CallLogPayload := { campaign_id := "xx", duration_seconds := 120 }

def shortCall : CallLogPayload :=
  { campaign_id := "xx", duration_seconds := 45, threshold := 30 }

def debit35 : WalletTransaction :=
  { user_id := "x", «type» := TxType.debit, amount := 35,
    memo := some ("Billable call"), campaign_id := some ("xx"),
    call_id := some (idOf 5) }

def lowRec : CallRecord :=
  { campaign_id := "xx", buyer_id := "x", duration_seconds := 120,
    billable_threshold := 90, billable := true,
    disposition := Disposition.completed }

/-- The store `lowDB` after `log_call lowDB lowCall`. -/
def lowDB2 : DB :=
  { user := [("x", sampleBuyer)],
    campaign := [("xx", { pausedCamp with status := Status.depleted })],
    wallettransaction := [("xxx", credit60), (idOf 6, debit35)],
    callrecord := [(idOf 5, lowRec)],
    notification := [(idOf 7,
      { user_id := "x", message := "Balance low: campaign paused. Please add funds." })],
    next_id := 8 }

def shortRec : CallRecord :=
  { campaign_id := "xx", buyer_id := "x", duration_seconds := 45,
    billable_threshold := 30, billable := false,
    disposition := Disposition.short }

/-- The store `lowDB` after `log_call lowDB shortCall`. -/
def lowDBshort : DB :=
  { user := [("x", sampleBuyer)],
    campaign := [("xx", pausedCamp)],
    wallettransaction := [("xxx", credit60)],
    callrecord := [(idOf 5, shortRec)],
    next_id := 6 }

def r0 : RoutingAssignment := { campaign_id := "xx", seller_ids := ["xxxx"], did_number := "d" }

/-- The store `lowDB` after `assign_routing lowDB "xx" r0` (balance 60,
so the campaign becomes active). -/
def routeDB2 : DB :=
  { user := [("x", sampleBuyer)],
    campaign := [("xx", { pausedCamp with status := Status.active })],
    wallettransaction := [("xxx", credit60)],
    routingassignment := [(idOf 5, r0)],
    notification := [(idOf 6, { user_id := "x", message := "Your campaign routing is configured." }),
                     (idOf 7, { user_id := "xxxx", message := "You have been assigned to a campaign." })],
    next_id := 8 }

/-- The write operations of the API, as data. -/
inductive Op
  | topup (payload : TopUp)
  | createCampaign (campaign : Campaign)
  | accept (campaign_id : String) (payload : AcceptPayload)
  | transferNumber (campaign_id : String) (payload : TransferNumberPayload)
  | assignRouting (campaign_id : String) (routing : RoutingAssignment)
  | logCall (payload : CallLogPayload)

/-- Run one operation against the store, keeping only success or error
as the visible result. -/
def runOp (db : DB) : Op → Except Err Unit × DB
  | Op.topup p => ((wallet_topup db p).1.map (fun _ => ()), (wallet_topup db p).2)
  | Op.createCampaign c =>
    ((create_campaign db c).1.map (fun _ => ()), (create_campaign db c).2)
  | Op.accept cid p =>
    ((accept_campaign db cid p).1.map (fun _ => ()), (accept_campaign db cid p).2)
  | Op.transferNumber cid p =>
    ((set_transfer_number db cid p).1.map (fun _ => ()), (set_transfer_number db cid p).2)
  | Op.assignRouting cid r =>
    ((assign_routing db cid r).1.map (fun _ => ()), (assign_routing db cid r).2)
  | Op.logCall p => ((log_call db p).1.map (fun _ => ()), (log_call db p).2)

def runOps (db : DB) (ops : List Op) : DB :=
  ops.foldl (fun s op => (runOp s op).2) db

/-- The empty store. -/
def emptyDB : DB := {}

/-- Amounts that are a whole number of cents: exactly the values that
2-decimal rounding leaves unchanged. -/
def cents (q : ℚ) : Prop := ∃ n : ℤ, q = n / 100

def oddTopUp : TopUp := { user_id := "x", amount := 50001/1000 }

def oddTx : WalletTransaction :=
  { user_id := "x", «type» := TxType.credit, amount := 50001/1000,
    memo := some ("Account funding") }

/-- A store holding a single buyer with an empty ledger. -/
def topupDB : DB := { user := [("x", sampleBuyer)], next_id := 3 }

/-- The store `topupDB` after topping up 50.001 dollars. -/
def topupDB2 : DB :=
  { user := [("x", sampleBuyer)], wallettransaction := [(idOf 3, oddTx)], next_id := 4 }

def sampleAdmin : User :=
  { name := "Ada", email := "ada@example.com", role := Role.admin }

/-- A store whose only user is an admin. -/
def adminDB : DB := { user := [("x", sampleAdmin)], next_id := 3 }

/-- The upsert key of each stored seller acceptance. -/
def acceptKeys (db : DB) : List (String × String) :=
  db.selleracceptance.map (fun x => (x.2.campaign_id, x.2.seller_id))

/-- The upsert key of each stored routing assignment. -/
def routingKeys (db : DB) : List String :=
  db.routingassignment.map (fun x => x.2.campaign_id)

/-- Well-formedness of a collection's ids relative to the id counter:
ids were minted in order (strictly growing lengths, since `idOf n` has
length `n`) and all below the counter. Every store reachable from the
empty store satisfies this. -/
def collWf {α : Type} (l : List (String × α)) (n : Nat) : Prop :=
  (l.map (fun x => x.1.length)).Pairwise (· < ·) ∧
  ∀ s ∈ l.map (fun x => x.1.length), s < n

def isAcceptOrRouting : Op → Bool
  | Op.accept _ _ => true
  | Op.assignRouting _ _ => true
  | _ => false

/-- An assign-routing request is well-addressed when the body's
campaign_id equals the path campaign id. -/
def routingBodyMatches : Op → Bool
  | Op.assignRouting cid r => r.campaign_id == cid
  | _ => true

/-- The invariant the upsert claims rely on: routing ids are
well-formed with respect to the id counter, and both upsert keys are
duplicate-free. Holds for the empty store and is preserved by accept
and well-addressed assign-routing calls. -/
def storeInv (db : DB) : Prop :=
  collWf db.routingassignment db.next_id ∧
  (acceptKeys db).Nodup ∧ (routingKeys db).Nodup

def rMis : RoutingAssignment := { campaign_id := "xxxx", seller_ids := ["x"], did_number := "d" }

def rOk : RoutingAssignment := { campaign_id := "xx", seller_ids := ["x"], did_number := "d" }

/-- A buyer with an empty ledger and two campaigns, with ids `"xx"` and
`"xxxx"`. -/
def dupDB : DB :=
  { user := [("x", sampleBuyer)],
    campaign := [("xx", pausedCamp), ("xxxx", pausedCamp)],
    next_id := 5 }

/-- `dupDB` after one `assign_routing` on path `"xx"` whose body names
campaign `"xxxx"`. -/
def dupDB1 : DB :=
  { user := [("x", sampleBuyer)],
    campaign := [("xx", { pausedCamp with status := Status.depleted }), ("xxxx", pausedCamp)],
    routingassignment := [(idOf 5, rMis)],
    notification := [(idOf 6, { user_id := "x", message := "Your campaign routing is configured." }),
                     (idOf 7, { user_id := "x", message := "You have been assigned to a campaign." })],
    next_id := 8 }

/-- `dupDB` after the same mismatched `assign_routing` twice: two
routing records both carrying campaign_id `"xxxx"`. -/
def dupDB2 : DB :=
  { user := [("x", sampleBuyer)],
    campaign := [("xx", { pausedCamp with status := Status.depleted }), ("xxxx", pausedCamp)],
    routingassignment := [(idOf 5, rMis), (idOf 8, rMis)],
    notification := [(idOf 6, { user_id := "x", message := "Your campaign routing is configured." }),
                     (idOf 7, { user_id := "x", message := "You have been assigned to a campaign." }),
                     (idOf 9, { user_id := "x", message := "Your campaign routing is configured." }),
                     (idOf 10, { user_id := "x", message := "You have been assigned to a campaign." })],
    next_id := 11 }

/-!
## Theorems
-/

theorem fold_signed (l : List (String × WalletTransaction)) (a : ℚ) :
    l.foldl
      (fun b t =>
        match t.2.«type» with
        | TxType.credit => b + t.2.amount
        | TxType.debit => b - t.2.amount) a
      = a + ((l.filter (fun t => t.2.«type» == TxType.credit)).map (fun t => t.2.amount)).sum
          - ((l.filter (fun t => t.2.«type» == TxType.debit)).map (fun t => t.2.amount)).sum := by
  induction l generalizing a with
  | nil => simp
  | cons t ts ih =>
    cases h : t.2.«type» with
    | credit => simp [h, ih]; ring
    | debit => simp [h, ih]; ring

theorem get_balance_eq (db : DB) (user_id : String) :
    get_balance db user_id = round2 (sum_credits db user_id - sum_debits db user_id) := by
  unfold get_balance ledger_balance sum_credits sum_debits
  rw [fold_signed, List.filter_filter, List.filter_filter]
  simp

/-- Claim C1: for every store state (hence after every sequence of
ledger appends) and every user, `get_balance` returns the sum of the
user's credit amounts minus the sum of the user's debit amounts,
rounded to 2 decimal places; it is recomputed from the
`wallettransaction` collection alone, with no stored counter. -/
theorem balance_is_rounded_credits_minus_debits (db : DB) (user_id : String) :
    get_balance db user_id = round2 (sum_credits db user_id - sum_debits db user_id) :=
  get_balance_eq db user_id

theorem ledger_balance_congr {db db' : DB} (h : db.wallettransaction = db'.wallettransaction)
    (user_id : String) : get_balance db user_id = get_balance db' user_id := by
  simp [get_balance, h]

theorem log_call_not_billable (db : DB) (p : CallLogPayload) (camp : String × Campaign)
    (hc : find_one db.campaign (fun c => c.1 == p.campaign_id) = some camp)
    (hb : ¬ p.duration_seconds ≥ max 60 p.threshold) :
    log_call db p =
      (Except.ok (idOf db.next_id, false),
       { db with
         callrecord := db.callrecord ++
           [(idOf db.next_id,
             { campaign_id := p.campaign_id, buyer_id := camp.2.buyer_id,
               seller_id := p.seller_id, did_number := p.did_number,
               caller := p.caller, called := p.called,
               duration_seconds := p.duration_seconds,
               billable_threshold := p.threshold, billable := false,
               recording_url := p.recording_url,
               disposition :=
                 if p.duration_seconds > 0 then Disposition.short
                 else Disposition.failed })],
         next_id := db.next_id + 1 }) := by
  have hprop : ¬ ((60:ℤ) ≤ p.duration_seconds ∧ p.threshold ≤ p.duration_seconds) := by
    rw [← max_le_iff]
    exact hb
  have hbool : (decide ((60:ℤ) ≤ p.duration_seconds) && decide (p.threshold ≤ p.duration_seconds)) = false := by
    by_cases hA : (60:ℤ) ≤ p.duration_seconds
    · have hB : ¬ p.threshold ≤ p.duration_seconds := fun hB => hprop ⟨hA, hB⟩
      simp [hB]
    · simp [hA]
  simp [log_call, hc, DB.insert_callrecord, hprop, hbool]

theorem log_call_billable_high (db : DB) (p : CallLogPayload) (camp : String × Campaign)
    (hc : find_one db.campaign (fun c => c.1 == p.campaign_id) = some camp)
    (hb : p.duration_seconds ≥ max 60 p.threshold)
    (hhigh : ¬ ledger_balance (db.wallettransaction ++
      [(idOf (db.next_id + 1),
        { user_id := camp.2.buyer_id, «type» := TxType.debit,
          amount := camp.2.price_per_call, memo := some ("Billable call"),
          campaign_id := some p.campaign_id, call_id := some (idOf db.next_id) })])
      camp.2.buyer_id < 50) :
    log_call db p =
      (Except.ok (idOf db.next_id, true),
       { db with
         callrecord := db.callrecord ++
           [(idOf db.next_id,
             { campaign_id := p.campaign_id, buyer_id := camp.2.buyer_id,
               seller_id := p.seller_id, did_number := p.did_number,
               caller := p.caller, called := p.called,
               duration_seconds := p.duration_seconds,
               billable_threshold := p.threshold, billable := true,
               recording_url := p.recording_url,
               disposition := Disposition.completed })],
         wallettransaction := db.wallettransaction ++
           [(idOf (db.next_id + 1),
             { user_id := camp.2.buyer_id, «type» := TxType.debit,
               amount := camp.2.price_per_call, memo := some ("Billable call"),
               campaign_id := some p.campaign_id, call_id := some (idOf db.next_id) })],
         next_id := db.next_id + 2 }) := by
  have h60 : (60:ℤ) ≤ p.duration_seconds := le_trans (le_max_left _ _) hb
  have hth : p.threshold ≤ p.duration_seconds := le_trans (le_max_right _ _) hb
  simp [log_call, hc, DB.insert_callrecord, DB.insert_wallettransaction,
        get_balance, h60, hth, hhigh]

theorem log_call_billable_low (db : DB) (p : CallLogPayload) (camp : String × Campaign)
    (hc : find_one db.campaign (fun c => c.1 == p.campaign_id) = some camp)
    (hb : p.duration_seconds ≥ max 60 p.threshold)
    (hlow : ledger_balance (db.wallettransaction ++
      [(idOf (db.next_id + 1),
        { user_id := camp.2.buyer_id, «type» := TxType.debit,
          amount := camp.2.price_per_call, memo := some ("Billable call"),
          campaign_id := some p.campaign_id, call_id := some (idOf db.next_id) })])
      camp.2.buyer_id < 50) :
    log_call db p =
      (Except.ok (idOf db.next_id, true),
       { db with
         callrecord := db.callrecord ++
           [(idOf db.next_id,
             { campaign_id := p.campaign_id, buyer_id := camp.2.buyer_id,
               seller_id := p.seller_id, did_number := p.did_number,
               caller := p.caller, called := p.called,
               duration_seconds := p.duration_seconds,
               billable_threshold := p.threshold, billable := true,
               recording_url := p.recording_url,
               disposition := Disposition.completed })],
         wallettransaction := db.wallettransaction ++
           [(idOf (db.next_id + 1),
             { user_id := camp.2.buyer_id, «type» := TxType.debit,
               amount := camp.2.price_per_call, memo := some ("Billable call"),
               campaign_id := some p.campaign_id, call_id := some (idOf db.next_id) })],
         campaign := update_one db.campaign camp.1
           (fun c => { c with status := Status.depleted }),
         notification := db.notification ++
           [(idOf (db.next_id + 2),
             { user_id := camp.2.buyer_id,
               message := "Balance low: campaign paused. Please add funds." })],
         next_id := db.next_id + 3 }) := by
  have h60 : (60:ℤ) ≤ p.duration_seconds := le_trans (le_max_left _ _) hb
  have hth : p.threshold ≤ p.duration_seconds := le_trans (le_max_right _ _) hb
  simp [log_call, hc, DB.insert_callrecord, DB.insert_wallettransaction,
        DB.insert_notification, get_balance, h60, hth, hlow]

/-- Claim C2: on a billable `log_call` against an existing campaign,
exactly one debit for the campaign's current `price_per_call` is
appended to the buyer's ledger, tagged with the campaign id and the new
call id; the buyer's balance is then recomputed and, when it is below
50, the campaign's status is set to depleted and exactly one
notification is appended; a non-billable call touches neither the
ledger, nor the campaign, nor the notifications. -/
theorem log_call_billing_effects (db : DB) (p : CallLogPayload) (camp : String × Campaign)
    (r : String × Bool) (db' : DB)
    (hc : find_one db.campaign (fun c => c.1 == p.campaign_id) = some camp)
    (h : log_call db p = (Except.ok r, db')) :
    (r.2 = true →
      r.1 = idOf db.next_id ∧
      (∃ rec, db'.callrecord = db.callrecord ++ [(r.1, rec)]) ∧
      db'.wallettransaction = db.wallettransaction ++
        [(idOf (db.next_id + 1),
          { user_id := camp.2.buyer_id, «type» := TxType.debit,
            amount := camp.2.price_per_call, memo := some ("Billable call"),
            campaign_id := some p.campaign_id, call_id := some r.1 })] ∧
      (get_balance db' camp.2.buyer_id < 50 →
        db'.campaign = update_one db.campaign camp.1
          (fun c => { c with status := Status.depleted }) ∧
        db'.notification = db.notification ++
          [(idOf (db.next_id + 2),
            { user_id := camp.2.buyer_id,
              message := "Balance low: campaign paused. Please add funds." })]) ∧
      (¬ get_balance db' camp.2.buyer_id < 50 →
        db'.campaign = db.campaign ∧ db'.notification = db.notification)) ∧
    (r.2 = false →
      db'.wallettransaction = db.wallettransaction ∧
      db'.campaign = db.campaign ∧
      db'.notification = db.notification) := by
  by_cases hb : p.duration_seconds ≥ max 60 p.threshold
  · by_cases hlow : ledger_balance (db.wallettransaction ++
      [(idOf (db.next_id + 1),
        { user_id := camp.2.buyer_id, «type» := TxType.debit,
          amount := camp.2.price_per_call, memo := some ("Billable call"),
          campaign_id := some p.campaign_id, call_id := some (idOf db.next_id) })])
      camp.2.buyer_id < 50
    · rw [log_call_billable_low db p camp hc hb hlow] at h
      injection h with h1 h2
      injection h1 with h1
      subst h2
      subst h1
      refine ⟨fun _ => ⟨rfl, ⟨_, rfl⟩, rfl, fun _ => ⟨rfl, rfl⟩, fun hn => ?_⟩,
              fun habs => by cases habs⟩
      exact absurd hlow (by simpa [get_balance] using hn)
    · rw [log_call_billable_high db p camp hc hb hlow] at h
      injection h with h1 h2
      injection h1 with h1
      subst h2
      subst h1
      refine ⟨fun _ => ⟨rfl, ⟨_, rfl⟩, rfl, fun hn => ?_, fun _ => ⟨rfl, rfl⟩⟩,
              fun habs => by cases habs⟩
      exact absurd (by simpa [get_balance] using hn) hlow
  · rw [log_call_not_billable db p camp hc hb] at h
    injection h with h1 h2
    injection h1 with h1
    subst h2
    subst h1
    exact ⟨fun habs => (by cases habs), fun _ => ⟨rfl, rfl, rfl⟩⟩

/-- Claim C3: a logged call is billable exactly when its duration
reaches `max 60 threshold`; the effective threshold is floored at 60
regardless of the caller-supplied value, and the stored call record
carries the same billable flag as the response. -/
theorem log_call_billable_iff_floor (db : DB) (p : CallLogPayload) (camp : String × Campaign)
    (r : String × Bool) (db' : DB)
    (hc : find_one db.campaign (fun c => c.1 == p.campaign_id) = some camp)
    (h : log_call db p = (Except.ok r, db')) :
    (r.2 = true ↔ p.duration_seconds ≥ max 60 p.threshold) ∧
    (∃ rec, db'.callrecord = db.callrecord ++ [(r.1, rec)] ∧ rec.billable = r.2) := by
  by_cases hb : p.duration_seconds ≥ max 60 p.threshold
  · by_cases hlow : ledger_balance (db.wallettransaction ++
      [(idOf (db.next_id + 1),
        { user_id := camp.2.buyer_id, «type» := TxType.debit,
          amount := camp.2.price_per_call, memo := some ("Billable call"),
          campaign_id := some p.campaign_id, call_id := some (idOf db.next_id) })])
      camp.2.buyer_id < 50
    · rw [log_call_billable_low db p camp hc hb hlow] at h
      injection h with h1 h2
      injection h1 with h1
      subst h2
      subst h1
      exact ⟨⟨fun _ => hb, fun _ => rfl⟩, ⟨_, rfl, rfl⟩⟩
    · rw [log_call_billable_high db p camp hc hb hlow] at h
      injection h with h1 h2
      injection h1 with h1
      subst h2
      subst h1
      exact ⟨⟨fun _ => hb, fun _ => rfl⟩, ⟨_, rfl, rfl⟩⟩
  · rw [log_call_not_billable db p camp hc hb] at h
    injection h with h1 h2
    injection h1 with h1
    subst h2
    subst h1
    exact ⟨⟨fun habs => (by cases habs), fun habs => absurd habs hb⟩, ⟨_, rfl, rfl⟩⟩

/-- Claim C4: the stored call record's disposition is completed when the
call is billable, otherwise short when the duration is positive,
otherwise failed. -/
theorem log_call_disposition_derivation (db : DB) (p : CallLogPayload) (camp : String × Campaign)
    (r : String × Bool) (db' : DB)
    (hc : find_one db.campaign (fun c => c.1 == p.campaign_id) = some camp)
    (h : log_call db p = (Except.ok r, db')) :
    ∃ rec, db'.callrecord = db.callrecord ++ [(r.1, rec)] ∧
      rec.billable = r.2 ∧
      rec.disposition =
        (if r.2 = true then Disposition.completed
         else if p.duration_seconds > 0 then Disposition.short
         else Disposition.failed) := by
  by_cases hb : p.duration_seconds ≥ max 60 p.threshold
  · by_cases hlow : ledger_balance (db.wallettransaction ++
      [(idOf (db.next_id + 1),
        { user_id := camp.2.buyer_id, «type» := TxType.debit,
          amount := camp.2.price_per_call, memo := some ("Billable call"),
          campaign_id := some p.campaign_id, call_id := some (idOf db.next_id) })])
      camp.2.buyer_id < 50
    · rw [log_call_billable_low db p camp hc hb hlow] at h
      injection h with h1 h2
      injection h1 with h1
      subst h2
      subst h1
      exact ⟨_, rfl, rfl, rfl⟩
    · rw [log_call_billable_high db p camp hc hb hlow] at h
      injection h with h1 h2
      injection h1 with h1
      subst h2
      subst h1
      exact ⟨_, rfl, rfl, rfl⟩
  · rw [log_call_not_billable db p camp hc hb] at h
    injection h with h1 h2
    injection h1 with h1
    subst h2
    subst h1
    exact ⟨_, rfl, rfl, rfl⟩

/-- Claim C5 (amended): the balance-low depletion write of `log_call`
fires from any prior campaign state: whenever a billable call leaves the
buyer's balance below 50, the target campaign's status is set to
depleted whatever its status was, and in every other case `log_call`
leaves the campaign collection untouched. -/
theorem log_call_depletion_ignores_prior_status (db : DB) (p : CallLogPayload)
    (camp : String × Campaign) (r : String × Bool) (db' : DB)
    (hc : find_one db.campaign (fun c => c.1 == p.campaign_id) = some camp)
    (h : log_call db p = (Except.ok r, db')) :
    (r.2 = true → get_balance db' camp.2.buyer_id < 50 →
      db'.campaign = update_one db.campaign camp.1
        (fun c => { c with status := Status.depleted })) ∧
    (r.2 = true → ¬ get_balance db' camp.2.buyer_id < 50 → db'.campaign = db.campaign) ∧
    (r.2 = false → db'.campaign = db.campaign) := by
  by_cases hb : p.duration_seconds ≥ max 60 p.threshold
  · by_cases hlow : ledger_balance (db.wallettransaction ++
      [(idOf (db.next_id + 1),
        { user_id := camp.2.buyer_id, «type» := TxType.debit,
          amount := camp.2.price_per_call, memo := some ("Billable call"),
          campaign_id := some p.campaign_id, call_id := some (idOf db.next_id) })])
      camp.2.buyer_id < 50
    · rw [log_call_billable_low db p camp hc hb hlow] at h
      injection h with h1 h2
      injection h1 with h1
      subst h2
      subst h1
      refine ⟨fun _ _ => rfl, fun _ hn => ?_, fun habs => by cases habs⟩
      exact absurd hlow (by simpa [get_balance] using hn)
    · rw [log_call_billable_high db p camp hc hb hlow] at h
      injection h with h1 h2
      injection h1 with h1
      subst h2
      subst h1
      refine ⟨fun _ hn => ?_, fun _ _ => rfl, fun habs => by cases habs⟩
      exact absurd (by simpa [get_balance] using hn) hlow
  · rw [log_call_not_billable db p camp hc hb] at h
    injection h with h1 h2
    injection h1 with h1
    subst h2
    subst h1
    exact ⟨fun habs => (by cases habs), fun habs => (by cases habs), fun _ => rfl⟩

theorem round2_eval (q : ℚ) (n : ℤ) (r : ℚ) (h1 : (n:ℚ) ≤ q * 100 + 1/2)
    (h2 : q * 100 + 1/2 < n + 1) (h3 : (n:ℚ)/100 = r) : round2 q = r := by
  unfold round2
  rw [round_eq, Int.floor_eq_iff.mpr ⟨h1, h2⟩, h3]

theorem low_after_debit :
    ledger_balance ([("xxx", credit60), (idOf 6, debit35)]) ("x") < 50 := by
  norm_num [ledger_balance, credit60, debit35, round2, List.filter, List.foldl]

theorem lowDB_run : log_call lowDB lowCall = (Except.ok (idOf 5, true), lowDB2) :=
  log_call_billable_low lowDB lowCall ("xx", pausedCamp) (by decide) (by decide)
    low_after_debit

theorem lowDB_short_run : log_call lowDB shortCall = (Except.ok (idOf 5, false), lowDBshort) :=
  log_call_not_billable lowDB shortCall ("xx", pausedCamp) (by decide) (by decide)

theorem lowDB2_balance_low : get_balance lowDB2 ("x") < 50 :=
  low_after_debit

/-- Claim C5, counterexample: the campaign of `lowDB` is `paused`, not
`active`, yet the billable call `lowCall` leaves the balance below 50
and still flips the status to `depleted`, so `log_call` changes the
status of a campaign that is not in state `active`. -/
theorem log_call_depletes_paused_campaign :
    (find_one lowDB.campaign (fun c => c.1 == ("xx"))).map (fun c => c.2.status)
      = some Status.paused ∧
    (find_one ((log_call lowDB lowCall).2).campaign (fun c => c.1 == ("xx"))).map
      (fun c => c.2.status) = some Status.depleted := by
  rw [lowDB_run]
  exact ⟨by decide, by decide⟩

theorem log_call_billing_effects_witness :
    lowDB2.notification = lowDB.notification ++
      [(idOf 7,
        { user_id := "x",
          message := "Balance low: campaign paused. Please add funds." })] :=
  (((log_call_billing_effects lowDB lowCall ("xx", pausedCamp) (idOf 5, true)
      lowDB2 (by decide) lowDB_run).1 rfl).2.2.2.1 lowDB2_balance_low).2

theorem log_call_billable_iff_floor_witness :
    (false = true ↔ shortCall.duration_seconds ≥ max 60 shortCall.threshold) :=
  (log_call_billable_iff_floor lowDB shortCall ("xx", pausedCamp) (idOf 5, false)
    lowDBshort (by decide) lowDB_short_run).1

theorem log_call_disposition_derivation_witness :
    ∃ rec, lowDBshort.callrecord = lowDB.callrecord ++ [((idOf 5, false).1, rec)] ∧
      rec.billable = (idOf 5, false).2 ∧
      rec.disposition = (if (idOf 5, false).2 = true then Disposition.completed
        else if shortCall.duration_seconds > 0 then Disposition.short
        else Disposition.failed) :=
  log_call_disposition_derivation lowDB shortCall ("xx", pausedCamp) (idOf 5, false)
    lowDBshort (by decide) lowDB_short_run

theorem log_call_depletion_ignores_prior_status_witness :
    lowDB2.campaign =
      update_one lowDB.campaign ("xx")
        (fun c => { c with status := Status.depleted }) :=
  (log_call_depletion_ignores_prior_status lowDB lowCall ("xx", pausedCamp) (idOf 5, true)
    lowDB2 (by decide) lowDB_run).1 rfl lowDB2_balance_low

theorem notify_each_cons (db : DB) (a : String) (l : List String) (msg : String) :
    notify_each db (a :: l) msg
      = notify_each ((db.insert_notification { user_id := a, message := msg }).2) l msg := rfl

theorem notify_each_campaign (l : List String) (msg : String) (db : DB) :
    (notify_each db l msg).campaign = db.campaign := by
  induction l generalizing db with
  | nil => rfl
  | cons a t ih =>
    rw [notify_each_cons, ih]
    rfl

theorem notify_each_wallet (l : List String) (msg : String) (db : DB) :
    (notify_each db l msg).wallettransaction = db.wallettransaction := by
  induction l generalizing db with
  | nil => rfl
  | cons a t ih =>
    rw [notify_each_cons, ih]
    rfl

theorem notify_each_selleracceptance (l : List String) (msg : String) (db : DB) :
    (notify_each db l msg).selleracceptance = db.selleracceptance := by
  induction l generalizing db with
  | nil => rfl
  | cons a t ih =>
    rw [notify_each_cons, ih]
    rfl

theorem notify_each_routingassignment (l : List String) (msg : String) (db : DB) :
    (notify_each db l msg).routingassignment = db.routingassignment := by
  induction l generalizing db with
  | nil => rfl
  | cons a t ih =>
    rw [notify_each_cons, ih]
    rfl

theorem notify_each_callrecord (l : List String) (msg : String) (db : DB) :
    (notify_each db l msg).callrecord = db.callrecord := by
  induction l generalizing db with
  | nil => rfl
  | cons a t ih =>
    rw [notify_each_cons, ih]
    rfl

theorem notify_each_user (l : List String) (msg : String) (db : DB) :
    (notify_each db l msg).user = db.user := by
  induction l generalizing db with
  | nil => rfl
  | cons a t ih =>
    rw [notify_each_cons, ih]
    rfl

theorem notify_each_next_id (l : List String) (msg : String) (db : DB) :
    (notify_each db l msg).next_id = db.next_id + l.length := by
  induction l generalizing db with
  | nil => rfl
  | cons a t ih =>
    rw [notify_each_cons, ih]
    simp [DB.insert_notification]
    omega

theorem notify_each_notification (l : List String) (msg : String) (db : DB) :
    (notify_each db l msg).notification.map (fun x => x.2)
      = db.notification.map (fun x => x.2)
        ++ l.map (fun sid => ({ user_id := sid, message := msg } : Notification)) := by
  induction l generalizing db with
  | nil => simp [notify_each]
  | cons a t ih =>
    rw [notify_each_cons, ih]
    simp [DB.insert_notification]

theorem upsert_routing_wallet (db : DB) (cid : String) (r : RoutingAssignment) :
    (upsert_routing db cid r).wallettransaction = db.wallettransaction := by
  cases hf : find_one db.routingassignment (fun x => x.2.campaign_id == cid) with
  | none => simp [upsert_routing, hf, DB.insert_routingassignment]
  | some ex => simp [upsert_routing, hf]

theorem upsert_routing_campaign (db : DB) (cid : String) (r : RoutingAssignment) :
    (upsert_routing db cid r).campaign = db.campaign := by
  cases hf : find_one db.routingassignment (fun x => x.2.campaign_id == cid) with
  | none => simp [upsert_routing, hf, DB.insert_routingassignment]
  | some ex => simp [upsert_routing, hf]

theorem upsert_routing_notification (db : DB) (cid : String) (r : RoutingAssignment) :
    (upsert_routing db cid r).notification = db.notification := by
  cases hf : find_one db.routingassignment (fun x => x.2.campaign_id == cid) with
  | none => simp [upsert_routing, hf, DB.insert_routingassignment]
  | some ex => simp [upsert_routing, hf]

theorem upsert_routing_selleracceptance (db : DB) (cid : String) (r : RoutingAssignment) :
    (upsert_routing db cid r).selleracceptance = db.selleracceptance := by
  cases hf : find_one db.routingassignment (fun x => x.2.campaign_id == cid) with
  | none => simp [upsert_routing, hf, DB.insert_routingassignment]
  | some ex => simp [upsert_routing, hf]

theorem upsert_routing_user (db : DB) (cid : String) (r : RoutingAssignment) :
    (upsert_routing db cid r).user = db.user := by
  cases hf : find_one db.routingassignment (fun x => x.2.campaign_id == cid) with
  | none => simp [upsert_routing, hf, DB.insert_routingassignment]
  | some ex => simp [upsert_routing, hf]

theorem upsert_routing_balance (db : DB) (cid : String) (r : RoutingAssignment)
    (u : String) : get_balance (upsert_routing db cid r) u = get_balance db u := by
  simp [get_balance, upsert_routing_wallet]

theorem assign_routing_active (db : DB) (cid : String) (routing : RoutingAssignment)
    (camp : String × Campaign)
    (hc : find_one db.campaign (fun c => c.1 == cid) = some camp)
    (hbal : get_balance db camp.2.buyer_id ≥ 50) :
    assign_routing db cid routing =
      (Except.ok Status.active,
       notify_each
         ((({ upsert_routing db cid routing with
             campaign := (update_one (upsert_routing db cid routing).campaign camp.1
               (fun c => { c with status := Status.active })) }).insert_notification
           { user_id := camp.2.buyer_id,
             message := "Your campaign routing is configured." }).2)
         routing.seller_ids ("You have been assigned to a campaign.")) := by
  have hb' : (50:ℚ) ≤ get_balance (upsert_routing db cid routing) camp.2.buyer_id := by
    rw [upsert_routing_balance]
    exact hbal
  simp [assign_routing, hc, hb']

theorem assign_routing_depleted (db : DB) (cid : String) (routing : RoutingAssignment)
    (camp : String × Campaign)
    (hc : find_one db.campaign (fun c => c.1 == cid) = some camp)
    (hbal : ¬ get_balance db camp.2.buyer_id ≥ 50) :
    assign_routing db cid routing =
      (Except.ok Status.depleted,
       notify_each
         ((({ upsert_routing db cid routing with
             campaign := (update_one (upsert_routing db cid routing).campaign camp.1
               (fun c => { c with status := Status.depleted })) }).insert_notification
           { user_id := camp.2.buyer_id,
             message := "Your campaign routing is configured." }).2)
         routing.seller_ids ("You have been assigned to a campaign.")) := by
  have hb' : ¬ (50:ℚ) ≤ get_balance (upsert_routing db cid routing) camp.2.buyer_id := by
    rw [upsert_routing_balance]
    exact hbal
  simp [assign_routing, hc, hb']

/-- Claim C6: `assign-routing` on an existing campaign sets the status
to active when the buyer's recomputed balance is at least 50 and to
depleted otherwise, and appends one notification to the buyer plus one
per entry of the submitted seller_ids list. -/
theorem assign_routing_activates_or_depletes (db : DB) (campaign_id : String)
    (routing : RoutingAssignment) (camp : String × Campaign) (st : Status) (db' : DB)
    (hc : find_one db.campaign (fun c => c.1 == campaign_id) = some camp)
    (h : assign_routing db campaign_id routing = (Except.ok st, db')) :
    (st = if get_balance db camp.2.buyer_id ≥ 50 then Status.active else Status.depleted) ∧
    db'.campaign = update_one db.campaign camp.1 (fun c => { c with status := st }) ∧
    db'.notification.map (fun x => x.2) = db.notification.map (fun x => x.2) ++
      ({ user_id := camp.2.buyer_id, message := "Your campaign routing is configured." } ::
        routing.seller_ids.map (fun sid =>
          ({ user_id := sid, message := "You have been assigned to a campaign." } : Notification))) := by
  by_cases hbal : get_balance db camp.2.buyer_id ≥ 50
  · rw [assign_routing_active db campaign_id routing camp hc hbal] at h
    injection h with h1 h2
    injection h1 with h1
    subst h2
    subst h1
    refine ⟨(if_pos hbal).symm, ?_, ?_⟩
    · rw [notify_each_campaign]
      simp [DB.insert_notification, upsert_routing_campaign]
    · rw [notify_each_notification]
      simp [DB.insert_notification, upsert_routing_notification]
  · rw [assign_routing_depleted db campaign_id routing camp hc hbal] at h
    injection h with h1 h2
    injection h1 with h1
    subst h2
    subst h1
    refine ⟨(if_neg hbal).symm, ?_, ?_⟩
    · rw [notify_each_campaign]
      simp [DB.insert_notification, upsert_routing_campaign]
    · rw [notify_each_notification]
      simp [DB.insert_notification, upsert_routing_notification]

theorem lowDB_balance_ge : get_balance lowDB ("x") ≥ 50 := by
  norm_num [get_balance, ledger_balance, lowDB, credit60, round2, List.filter, List.foldl]

theorem routeDB_run : assign_routing lowDB ("xx") r0 = (Except.ok Status.active, routeDB2) := by
  rw [assign_routing_active lowDB ("xx") r0 ("xx", pausedCamp) (by decide) lowDB_balance_ge]
  rfl

theorem assign_routing_activates_or_depletes_witness :
    (Status.active = if get_balance lowDB ("x") ≥ 50 then Status.active else Status.depleted) ∧
    routeDB2.campaign = update_one lowDB.campaign ("xx")
      (fun c => { c with status := Status.active }) ∧
    routeDB2.notification.map (fun x => x.2) = lowDB.notification.map (fun x => x.2) ++
      ({ user_id := "x", message := "Your campaign routing is configured." } ::
        r0.seller_ids.map (fun sid =>
          ({ user_id := sid, message := "You have been assigned to a campaign." } : Notification))) :=
  assign_routing_activates_or_depletes lowDB ("xx") r0 ("xx", pausedCamp) Status.active
    routeDB2 (by decide) routeDB_run

/-- Claim C8: whenever one of the six write operations returns an error
(a failed guard), the store is exactly what it was before the call: all
guards run before the first write. -/
theorem guard_failure_leaves_store_unchanged (db : DB) (op : Op) (e : Err)
    (h : (runOp db op).1 = Except.error e) : (runOp db op).2 = db := by
  cases op with
  | topup p =>
    by_cases h50 : p.amount < 50
    · simp [runOp, wallet_topup, h50]
    · cases hf : find_one db.user (fun u => u.1 == p.user_id) with
      | none => simp [runOp, wallet_topup, h50, hf]
      | some u => simp [runOp, wallet_topup, h50, hf, Except.map] at h
  | createCampaign c =>
    cases hf : find_one db.user (fun u => u.1 == c.buyer_id) with
    | none => simp [runOp, create_campaign, hf]
    | some buyer =>
      by_cases hrole : buyer.2.role = Role.buyer
      · by_cases hprice : c.price_per_call < 35
        · simp [runOp, create_campaign, hf, hrole, hprice]
        · simp [runOp, create_campaign, hf, hrole, hprice, Except.map] at h
      · simp [runOp, create_campaign, hf, hrole]
  | accept cid p =>
    cases hc : find_one db.campaign (fun c => c.1 == cid) with
    | none => simp [runOp, accept_campaign, hc]
    | some camp =>
      cases hs : find_one db.user (fun u => u.1 == p.seller_id) with
      | none => simp [runOp, accept_campaign, hc, hs]
      | some seller =>
        by_cases hrole : seller.2.role = Role.seller
        · simp [runOp, accept_campaign, hc, hs, hrole, Except.map] at h
        · simp [runOp, accept_campaign, hc, hs, hrole]
  | transferNumber cid p =>
    cases hc : find_one db.campaign (fun c => c.1 == cid) with
    | none => simp [runOp, set_transfer_number, hc]
    | some camp => simp [runOp, set_transfer_number, hc, Except.map] at h
  | assignRouting cid r =>
    cases hc : find_one db.campaign (fun c => c.1 == cid) with
    | none => simp [runOp, assign_routing, hc]
    | some camp => simp [runOp, assign_routing, hc, Except.map] at h
  | logCall p =>
    cases hc : find_one db.campaign (fun c => c.1 == p.campaign_id) with
    | none => simp [runOp, log_call, hc]
    | some camp =>
      simp only [runOp, log_call, hc] at h
      split at h
      · split at h
        · simp [Except.map] at h
        · simp [Except.map] at h
      · simp [Except.map] at h

theorem guard_failure_leaves_store_unchanged_witness :
    (runOp emptyDB (Op.topup { user_id := "x", amount := 10 })).2 = emptyDB :=
  guard_failure_leaves_store_unchanged emptyDB (Op.topup { user_id := "x", amount := 10 })
    (Err.validation ("Minimum top-up is $50")) (by rfl)

theorem cents_zero : cents 0 := ⟨0, by norm_num⟩

theorem cents_add {a b : ℚ} (ha : cents a) (hb : cents b) : cents (a + b) := by
  obtain ⟨m, rfl⟩ := ha
  obtain ⟨n, rfl⟩ := hb
  exact ⟨m + n, by push_cast; ring⟩

theorem cents_sub {a b : ℚ} (ha : cents a) (hb : cents b) : cents (a - b) := by
  obtain ⟨m, rfl⟩ := ha
  obtain ⟨n, rfl⟩ := hb
  exact ⟨m - n, by push_cast; ring⟩

theorem round2_cents {q : ℚ} (h : cents q) : round2 q = q := by
  obtain ⟨n, rfl⟩ := h
  unfold round2
  rw [div_mul_cancel₀, round_intCast]
  norm_num

theorem cents_fold (l : List (String × WalletTransaction)) (a : ℚ)
    (hl : ∀ t ∈ l, cents t.2.amount) (ha : cents a) :
    cents (l.foldl
      (fun b t =>
        match t.2.«type» with
        | TxType.credit => b + t.2.amount
        | TxType.debit => b - t.2.amount) a) := by
  induction l generalizing a with
  | nil => exact ha
  | cons t ts ih =>
    have ht : cents t.2.amount := hl t (by simp)
    have hts : ∀ x ∈ ts, cents x.2.amount := fun x hx => hl x (by simp [hx])
    cases htt : t.2.«type» with
    | credit => simpa [htt] using ih (a + t.2.amount) hts (cents_add ha ht)
    | debit => simpa [htt] using ih (a - t.2.amount) hts (cents_sub ha ht)

theorem ledger_balance_append_credit (l : List (String × WalletTransaction))
    (uid : String) (tx : WalletTransaction) (id : String)
    (htu : tx.user_id = uid) (htt : tx.«type» = TxType.credit)
    (hl : ∀ t ∈ l, cents t.2.amount) (ha : cents tx.amount) :
    ledger_balance (l ++ [(id, tx)]) uid = ledger_balance l uid + tx.amount := by
  unfold ledger_balance
  rw [List.filter_append]
  have hfe : List.filter (fun t => t.2.user_id == uid) [(id, tx)] = [(id, tx)] := by
    simp [htu]
  rw [hfe, List.foldl_append]
  have hS : cents ((List.filter (fun t => t.2.user_id == uid) l).foldl
      (fun b t =>
        match t.2.«type» with
        | TxType.credit => b + t.2.amount
        | TxType.debit => b - t.2.amount) 0) :=
    cents_fold _ 0 (fun t ht => hl t (List.mem_of_mem_filter ht)) cents_zero
  simp only [List.foldl_cons, List.foldl_nil, htt]
  rw [round2_cents (cents_add hS ha), round2_cents hS]

theorem ledger_balance_append_other (l : List (String × WalletTransaction))
    (uid : String) (tx : WalletTransaction) (id : String)
    (htu : tx.user_id ≠ uid) :
    ledger_balance (l ++ [(id, tx)]) uid = ledger_balance l uid := by
  unfold ledger_balance
  rw [List.filter_append]
  have hfe : List.filter (fun t => t.2.user_id == uid) [(id, tx)] = [] := by
    simp [htu]
  rw [hfe, List.append_nil]

theorem wallet_topup_low (db : DB) (p : TopUp) (h50 : p.amount < 50) :
    wallet_topup db p = (Except.error (Err.validation ("Minimum top-up is $50")), db) := by
  simp [wallet_topup, h50]

theorem wallet_topup_ok (db : DB) (p : TopUp) (u : String × User)
    (h50 : ¬ p.amount < 50)
    (hf : find_one db.user (fun x => x.1 == p.user_id) = some u) :
    wallet_topup db p =
      (Except.ok (idOf db.next_id,
        get_balance
          { db with
            wallettransaction := db.wallettransaction ++
              [(idOf db.next_id,
                { user_id := p.user_id, «type» := TxType.credit, amount := p.amount,
                  memo := some ("Account funding") })],
            next_id := db.next_id + 1 } p.user_id),
       { db with
         wallettransaction := db.wallettransaction ++
           [(idOf db.next_id,
             { user_id := p.user_id, «type» := TxType.credit, amount := p.amount,
               memo := some ("Account funding") })],
         next_id := db.next_id + 1 }) := by
  simp [wallet_topup, h50, hf, DB.insert_wallettransaction]

/-- Claim C9 (amended): a top-up below 50 is rejected with a validation
error and leaves the store untouched; a top-up of at least 50 for an
existing user appends exactly one credit entry, leaves every other
user's balance unchanged and, provided all ledger amounts and the top-up
amount are whole numbers of cents, raises the user's balance by exactly
the top-up amount. -/
theorem wallet_topup_spec (db : DB) (p : TopUp) :
    (p.amount < 50 →
      wallet_topup db p = (Except.error (Err.validation ("Minimum top-up is $50")), db)) ∧
    (¬ p.amount < 50 → ∀ u, find_one db.user (fun x => x.1 == p.user_id) = some u →
      ∃ db', wallet_topup db p = (Except.ok (idOf db.next_id, get_balance db' p.user_id), db') ∧
        db'.wallettransaction = db.wallettransaction ++
          [(idOf db.next_id,
            { user_id := p.user_id, «type» := TxType.credit, amount := p.amount,
              memo := some ("Account funding") })] ∧
        ((∀ t ∈ db.wallettransaction, cents t.2.amount) → cents p.amount →
          get_balance db' p.user_id = get_balance db p.user_id + p.amount) ∧
        (∀ u', u' ≠ p.user_id → get_balance db' u' = get_balance db u')) := by
  refine ⟨fun h50 => wallet_topup_low db p h50, fun h50 u hf => ?_⟩
  refine ⟨_, wallet_topup_ok db p u h50 hf, rfl, fun hl hp => ?_, fun u' hu' => ?_⟩
  · show ledger_balance _ p.user_id = ledger_balance db.wallettransaction p.user_id + p.amount
    exact ledger_balance_append_credit db.wallettransaction p.user_id _ _ rfl rfl hl hp
  · show ledger_balance _ u' = ledger_balance db.wallettransaction u'
    exact ledger_balance_append_other db.wallettransaction u' _ _ (fun hx => hu' hx.symm)

theorem topupDB2_balance : get_balance topupDB2 ("x") = 50 := by
  show ledger_balance [(idOf 3, oddTx)] ("x") = 50
  simp only [ledger_balance, List.filter, List.foldl, oddTx]
  norm_num
  rw [round2_eval _ 5000 50]
  all_goals norm_num

theorem topupDB_balance : get_balance topupDB ("x") = 0 := by
  show ledger_balance [] ("x") = 0
  simp only [ledger_balance, List.filter, List.foldl]
  norm_num [round2]

theorem topupDB_run :
    wallet_topup topupDB oddTopUp = (Except.ok (idOf 3, get_balance topupDB2 ("x")), topupDB2) :=
  wallet_topup_ok topupDB oddTopUp ("x", sampleBuyer) (by norm_num [oddTopUp]) (by decide)

/-- Claim C9, counterexample: topping up 50.001 dollars on an empty
ledger succeeds but moves the balance from 0 to 50.00, an increase that
is not the top-up amount, because the balance is rounded to 2 decimal
places. -/
theorem wallet_topup_rounded_increase :
    (wallet_topup topupDB oddTopUp).1 = Except.ok (idOf 3, 50) ∧
    get_balance (wallet_topup topupDB oddTopUp).2 ("x") - get_balance topupDB ("x")
      ≠ oddTopUp.amount := by
  rw [topupDB_run]
  refine ⟨by rw [topupDB2_balance], ?_⟩
  rw [topupDB2_balance, topupDB_balance]
  norm_num [oddTopUp]

theorem wallet_topup_spec_witness :
    ∃ db', wallet_topup topupDB ({ user_id := "x", amount := 50 })
        = (Except.ok (idOf 3, get_balance db' ("x")), db') ∧
      get_balance db' ("x") = get_balance topupDB ("x") + 50 := by
  obtain ⟨db', hrun, _, hinc, _⟩ :=
    (wallet_topup_spec topupDB { user_id := "x", amount := 50 }).2
      (by norm_num) ("x", sampleBuyer) (by decide)
  exact ⟨db', hrun, hinc (by simp [topupDB]) ⟨5000, by norm_num⟩⟩

/-- Claim C10: the top-up handler checks only that a user document with
the given id exists, never its role: any existing user of any role can
be credited. -/
theorem wallet_topup_ignores_role (db : DB) (p : TopUp) (u : String × User)
    (h50 : 50 ≤ p.amount)
    (hf : find_one db.user (fun x => x.1 == p.user_id) = some u) :
    ∃ db', wallet_topup db p = (Except.ok (idOf db.next_id, get_balance db' p.user_id), db') ∧
      db'.wallettransaction = db.wallettransaction ++
        [(idOf db.next_id,
          { user_id := p.user_id, «type» := TxType.credit, amount := p.amount,
            memo := some ("Account funding") })] :=
  ⟨_, wallet_topup_ok db p u (not_lt.mpr h50) hf, rfl⟩

theorem wallet_topup_ignores_role_witness :
    ∃ db', wallet_topup adminDB ({ user_id := "x", amount := 75 })
        = (Except.ok (idOf 3, get_balance db' ("x")), db') ∧
      db'.wallettransaction = adminDB.wallettransaction ++
        [(idOf 3,
          { user_id := "x", «type» := TxType.credit, amount := 75,
            memo := some ("Account funding") })] :=
  wallet_topup_ignores_role adminDB { user_id := "x", amount := 75 } ("x", sampleAdmin)
    (by norm_num) (by decide)

theorem idOf_length (n : Nat) : (idOf n).length = n := by
  show (List.replicate n 'x').length = n
  simp

theorem update_one_map_fst {α : Type} (l : List (String × α)) (i : String) (f : α → α) :
    (update_one l i f).map (fun x => x.1) = l.map (fun x => x.1) := by
  induction l with
  | nil => rfl
  | cons x xs ih =>
    by_cases hx : x.1 = i
    · simp [update_one, hx]
    · simp [update_one, hx, ih]

theorem map_key_update_one {α β : Type} (l : List (String × α)) (i : String) (f : α → α)
    (key : α → β) (hk : ∀ y ∈ l, y.1 = i → key (f y.2) = key y.2) :
    (update_one l i f).map (fun x => key x.2) = l.map (fun x => key x.2) := by
  induction l with
  | nil => rfl
  | cons x xs ih =>
    by_cases hx : x.1 = i
    · simp [update_one, hx, hk x (by simp) hx]
    · simp [update_one, hx]
      exact ih (fun y hy hyi => hk y (by simp [hy]) hyi)

theorem update_one_map_len {α : Type} (l : List (String × α)) (i : String) (f : α → α) :
    (update_one l i f).map (fun x => x.1.length) = l.map (fun x => x.1.length) := by
  have h := congrArg (List.map String.length) (update_one_map_fst l i f)
  simpa [List.map_map, Function.comp] using h

theorem collWf_mono {α : Type} {l : List (String × α)} {n m : Nat}
    (h : collWf l n) (hnm : n ≤ m) : collWf l m :=
  ⟨h.1, fun s hs => lt_of_lt_of_le (h.2 s hs) hnm⟩

theorem collWf_update {α : Type} {l : List (String × α)} {n : Nat} (i : String) (f : α → α)
    (h : collWf l n) : collWf (update_one l i f) n := by
  unfold collWf
  rw [update_one_map_len]
  exact h

theorem collWf_append {α : Type} {l : List (String × α)} {n : Nat} (d : α)
    (h : collWf l n) : collWf (l ++ [(idOf n, d)]) (n + 1) := by
  unfold collWf at h ⊢
  rw [List.map_append]
  constructor
  · rw [List.pairwise_append]
    refine ⟨h.1, by simp, ?_⟩
    intro a ha b hb
    simp only [List.map_cons, List.map_nil, List.mem_singleton, idOf_length] at hb
    subst hb
    exact h.2 a ha
  · intro s hs
    rcases List.mem_append.mp hs with hs | hs
    · exact lt_of_lt_of_le (h.2 s hs) (Nat.le_succ n)
    · simp only [List.map_cons, List.map_nil, List.mem_singleton, idOf_length] at hs
      subst hs
      exact Nat.lt_succ_self _

theorem collWf_ids_nodup {α : Type} {l : List (String × α)} {n : Nat}
    (h : collWf l n) : (l.map (fun x => x.1)).Nodup := by
  have h1 : (l.map (fun x => x.1.length)).Pairwise (· ≠ ·) :=
    h.1.imp (fun hlt => Nat.ne_of_lt hlt)
  rw [List.pairwise_map] at h1
  unfold List.Nodup
  rw [List.pairwise_map]
  exact h1.imp (fun hne heq => hne (by rw [heq]))

theorem upsert_acceptance_routing (db : DB) (cid sid : String) (st : AcceptStatus) :
    (upsert_acceptance db cid sid st).routingassignment = db.routingassignment := by
  cases hf : find_one db.selleracceptance
      (fun a => a.2.campaign_id == cid && a.2.seller_id == sid) with
  | none => simp [upsert_acceptance, hf, DB.insert_selleracceptance]
  | some ex => simp [upsert_acceptance, hf]

theorem upsert_acceptance_next_id (db : DB) (cid sid : String) (st : AcceptStatus) :
    db.next_id ≤ (upsert_acceptance db cid sid st).next_id := by
  cases hf : find_one db.selleracceptance
      (fun a => a.2.campaign_id == cid && a.2.seller_id == sid) with
  | none => simp [upsert_acceptance, hf, DB.insert_selleracceptance]
  | some ex => simp [upsert_acceptance, hf]

theorem upsert_acceptance_keys (db : DB) (cid sid : String) (st : AcceptStatus)
    (h : (acceptKeys db).Nodup) : (acceptKeys (upsert_acceptance db cid sid st)).Nodup := by
  cases hf : find_one db.selleracceptance
      (fun a => a.2.campaign_id == cid && a.2.seller_id == sid) with
  | some ex =>
    unfold acceptKeys upsert_acceptance
    rw [hf]
    rw [map_key_update_one db.selleracceptance ex.1 _
      (fun a => (a.campaign_id, a.seller_id)) (fun y _ _ => rfl)]
    exact h
  | none =>
    unfold acceptKeys upsert_acceptance
    rw [hf]
    show (List.map _ (db.selleracceptance ++ [(idOf db.next_id, _)])).Nodup
    rw [List.map_append]
    have hnotin : (cid, sid) ∉ db.selleracceptance.map
        (fun x => (x.2.campaign_id, x.2.seller_id)) := by
      intro hmem
      rcases List.mem_map.mp hmem with ⟨a, ha, hkey⟩
      have hno := List.find?_eq_none.mp hf a ha
      apply hno
      have h1 : a.2.campaign_id = cid := congrArg Prod.fst hkey
      have h2 : a.2.seller_id = sid := congrArg Prod.snd hkey
      simp [h1, h2]
    rw [List.nodup_append]
    refine ⟨h, List.nodup_singleton _, fun k hk hk2 => ?_⟩
    simp only [List.map_cons, List.map_nil, List.mem_singleton] at hk2
    subst hk2
    exact hnotin hk

theorem upsert_routing_next_id (db : DB) (cid : String) (r : RoutingAssignment) :
    db.next_id ≤ (upsert_routing db cid r).next_id := by
  cases hf : find_one db.routingassignment (fun x => x.2.campaign_id == cid) with
  | none => simp [upsert_routing, hf, DB.insert_routingassignment]
  | some ex => simp [upsert_routing, hf]

theorem upsert_routing_collWf (db : DB) (cid : String) (r : RoutingAssignment)
    (h : collWf db.routingassignment db.next_id) :
    collWf (upsert_routing db cid r).routingassignment (upsert_routing db cid r).next_id := by
  cases hf : find_one db.routingassignment (fun x => x.2.campaign_id == cid) with
  | some ex =>
    unfold upsert_routing
    rw [hf]
    exact collWf_update ex.1 _ h
  | none =>
    unfold upsert_routing
    rw [hf]
    exact collWf_append r h

theorem upsert_routing_keys (db : DB) (cid : String) (r : RoutingAssignment)
    (hm : r.campaign_id = cid)
    (hwf : collWf db.routingassignment db.next_id)
    (h : (routingKeys db).Nodup) : (routingKeys (upsert_routing db cid r)).Nodup := by
  cases hf : find_one db.routingassignment (fun x => x.2.campaign_id == cid) with
  | some ex =>
    have hids := collWf_ids_nodup hwf
    have hex_mem : ex ∈ db.routingassignment := List.mem_of_find?_eq_some hf
    have hex_key : ex.2.campaign_id = cid := by
      have := List.find?_some hf
      simpa using this
    unfold routingKeys upsert_routing
    rw [hf]
    rw [map_key_update_one db.routingassignment ex.1 _ (fun x => x.campaign_id) ?_]
    · exact h
    · intro y hy hyi
      have hyex : y = ex := List.inj_on_of_nodup_map hids hy hex_mem hyi
      show r.campaign_id = y.2.campaign_id
      rw [hyex, hex_key, hm]
  | none =>
    unfold routingKeys upsert_routing
    rw [hf]
    show (List.map _ (db.routingassignment ++ [(idOf db.next_id, r)])).Nodup
    rw [List.map_append]
    have hnotin : r.campaign_id ∉ db.routingassignment.map (fun x => x.2.campaign_id) := by
      intro hmem
      rcases List.mem_map.mp hmem with ⟨a, ha, hkey⟩
      have hno := List.find?_eq_none.mp hf a ha
      apply hno
      simp [hkey, hm]
    rw [List.nodup_append]
    refine ⟨h, List.nodup_singleton _, fun k hk hk2 => ?_⟩
    simp only [List.map_cons, List.map_nil, List.mem_singleton] at hk2
    subst hk2
    exact hnotin hk

theorem storeInv_insert_notification (db : DB) (n : Notification) (h : storeInv db) :
    storeInv (db.insert_notification n).2 :=
  ⟨collWf_mono h.1 (Nat.le_succ _), h.2.1, h.2.2⟩

theorem storeInv_set_campaign (db : DB) (l : List (String × Campaign)) (h : storeInv db) :
    storeInv { db with campaign := l } :=
  ⟨h.1, h.2.1, h.2.2⟩

theorem storeInv_notify_each (db : DB) (ids : List String) (msg : String) (h : storeInv db) :
    storeInv (notify_each db ids msg) := by
  refine ⟨?_, ?_, ?_⟩
  · rw [show (notify_each db ids msg).routingassignment = db.routingassignment from
      notify_each_routingassignment ids msg db, notify_each_next_id ids msg db]
    exact collWf_mono h.1 (Nat.le_add_right _ _)
  · unfold acceptKeys
    rw [notify_each_selleracceptance]
    exact h.2.1
  · unfold routingKeys
    rw [notify_each_routingassignment]
    exact h.2.2

theorem storeInv_upsert_acceptance (db : DB) (cid sid : String) (st : AcceptStatus)
    (h : storeInv db) : storeInv (upsert_acceptance db cid sid st) := by
  refine ⟨?_, upsert_acceptance_keys db cid sid st h.2.1, ?_⟩
  · rw [upsert_acceptance_routing]
    exact collWf_mono h.1 (upsert_acceptance_next_id db cid sid st)
  · unfold routingKeys
    rw [upsert_acceptance_routing]
    exact h.2.2

theorem storeInv_upsert_routing (db : DB) (cid : String) (r : RoutingAssignment)
    (hm : r.campaign_id = cid) (h : storeInv db) : storeInv (upsert_routing db cid r) := by
  refine ⟨upsert_routing_collWf db cid r h.1, ?_, upsert_routing_keys db cid r hm h.1 h.2.2⟩
  unfold acceptKeys
  rw [upsert_routing_selleracceptance]
  exact h.2.1

theorem storeInv_accept (db : DB) (cid : String) (p : AcceptPayload) (h : storeInv db) :
    storeInv (accept_campaign db cid p).2 := by
  cases hc : find_one db.campaign (fun c => c.1 == cid) with
  | none =>
    have he : (accept_campaign db cid p).2 = db := by simp [accept_campaign, hc]
    rw [he]
    exact h
  | some camp =>
    cases hs : find_one db.user (fun u => u.1 == p.seller_id) with
    | none =>
      have he : (accept_campaign db cid p).2 = db := by simp [accept_campaign, hc, hs]
      rw [he]
      exact h
    | some seller =>
      by_cases hrole : seller.2.role = Role.seller
      · have he : (accept_campaign db cid p).2 =
            ((upsert_acceptance db cid p.seller_id p.status).insert_notification
              { user_id := camp.2.buyer_id,
                message := "A seller responded to your campaign." }).2 := by
          simp [accept_campaign, hc, hs, hrole]
        rw [he]
        exact storeInv_insert_notification _ _ (storeInv_upsert_acceptance db cid p.seller_id p.status h)
      · have he : (accept_campaign db cid p).2 = db := by
          simp [accept_campaign, hc, hs, hrole]
        rw [he]
        exact h

theorem storeInv_assign_routing (db : DB) (cid : String) (r : RoutingAssignment)
    (hm : r.campaign_id = cid) (h : storeInv db) :
    storeInv (assign_routing db cid r).2 := by
  cases hc : find_one db.campaign (fun c => c.1 == cid) with
  | none =>
    have he : (assign_routing db cid r).2 = db := by simp [assign_routing, hc]
    rw [he]
    exact h
  | some camp =>
    have he : (assign_routing db cid r).2 =
        notify_each
          ((({ upsert_routing db cid r with
              campaign := (update_one (upsert_routing db cid r).campaign camp.1
                (fun c => { c with status :=
                  (if get_balance (upsert_routing db cid r) camp.2.buyer_id ≥ 50
                   then Status.active else Status.depleted) })) }).insert_notification
            { user_id := camp.2.buyer_id,
              message := "Your campaign routing is configured." }).2)
          r.seller_ids ("You have been assigned to a campaign.") := by
      simp [assign_routing, hc]
    rw [he]
    exact storeInv_notify_each _ _ _ (storeInv_insert_notification _ _
      (storeInv_set_campaign _ _ (storeInv_upsert_routing db cid r hm h)))

theorem storeInv_runOps (db : DB) (ops : List Op) (h : storeInv db)
    (hops : ∀ op ∈ ops, isAcceptOrRouting op = true ∧ routingBodyMatches op = true) :
    storeInv (runOps db ops) := by
  induction ops generalizing db with
  | nil => exact h
  | cons op rest ih =>
    have hop := hops op (by simp)
    have hrest : ∀ o ∈ rest, isAcceptOrRouting o = true ∧ routingBodyMatches o = true :=
      fun o ho => hops o (by simp [ho])
    have hstep : storeInv (runOp db op).2 := by
      cases op with
      | accept cid p => exact storeInv_accept db cid p h
      | assignRouting cid r =>
        have hm : r.campaign_id = cid := by simpa [routingBodyMatches] using hop.2
        exact storeInv_assign_routing db cid r hm h
      | topup p => exact absurd hop.1 (by simp [isAcceptOrRouting])
      | createCampaign c => exact absurd hop.1 (by simp [isAcceptOrRouting])
      | transferNumber cid p => exact absurd hop.1 (by simp [isAcceptOrRouting])
      | logCall p => exact absurd hop.1 (by simp [isAcceptOrRouting])
    exact ih _ hstep hrest

/-- Claim C7 (amended): starting from a store with well-formed ids and
duplicate-free upsert keys, any sequence of accept and assign-routing
operations keeps at most one SellerAcceptance per (campaign_id,
seller_id) pair and at most one RoutingAssignment per campaign_id,
provided every assign-routing request's body campaign_id equals the
path campaign id; a mismatched request can create a second
RoutingAssignment with the same campaign_id. -/
theorem upsert_keys_unique_after_accept_and_routing (db : DB) (ops : List Op)
    (hwf : collWf db.routingassignment db.next_id)
    (hacc : (acceptKeys db).Nodup) (hrt : (routingKeys db).Nodup)
    (hops : ∀ op ∈ ops, isAcceptOrRouting op = true ∧ routingBodyMatches op = true) :
    (acceptKeys (runOps db ops)).Nodup ∧ (routingKeys (runOps db ops)).Nodup :=
  ⟨(storeInv_runOps db ops ⟨hwf, hacc, hrt⟩ hops).2.1,
   (storeInv_runOps db ops ⟨hwf, hacc, hrt⟩ hops).2.2⟩

theorem dup_bal0 : ¬ get_balance dupDB ("x") ≥ 50 := by
  norm_num [get_balance, ledger_balance, dupDB, round2, List.filter, List.foldl]

theorem dup_bal1 : ¬ get_balance dupDB1 ("x") ≥ 50 := by
  norm_num [get_balance, ledger_balance, dupDB1, round2, List.filter, List.foldl]

theorem dup_step1 : assign_routing dupDB ("xx") rMis = (Except.ok Status.depleted, dupDB1) := by
  rw [assign_routing_depleted dupDB ("xx") rMis ("xx", pausedCamp) (by decide) dup_bal0]
  rfl

theorem dup_step2 : assign_routing dupDB1 ("xx") rMis = (Except.ok Status.depleted, dupDB2) := by
  rw [assign_routing_depleted dupDB1 ("xx") rMis
    ("xx", { pausedCamp with status := Status.depleted }) (by decide) dup_bal1]
  rfl

/-- Claim C7, counterexample: starting from a store with two campaigns
and no routing assignments, submitting the assign-routing request
`rMis` (path campaign `"xx"`, body campaign `"xxxx"`) twice creates two
RoutingAssignment records with the same campaign_id: the upsert filter
uses the path id while the stored document keeps the body id, so the
second call finds nothing to overwrite and inserts a duplicate. -/
theorem routing_upsert_duplicate_counterexample :
    (routingKeys dupDB).Nodup ∧
    ¬ (routingKeys (runOps dupDB
        [Op.assignRouting ("xx") rMis, Op.assignRouting ("xx") rMis])).Nodup := by
  have h1 : (runOp dupDB (Op.assignRouting ("xx") rMis)).2 = dupDB1 := by
    show (assign_routing dupDB ("xx") rMis).2 = dupDB1
    rw [dup_step1]
  have h2 : (runOp dupDB1 (Op.assignRouting ("xx") rMis)).2 = dupDB2 := by
    show (assign_routing dupDB1 ("xx") rMis).2 = dupDB2
    rw [dup_step2]
  have hrun : runOps dupDB [Op.assignRouting ("xx") rMis, Op.assignRouting ("xx") rMis]
      = dupDB2 := by
    show (runOp (runOp dupDB (Op.assignRouting ("xx") rMis)).2 (Op.assignRouting ("xx") rMis)).2
      = dupDB2
    rw [h1, h2]
  refine ⟨by decide, ?_⟩
  rw [hrun]
  decide

theorem upsert_keys_unique_after_accept_and_routing_witness :
    (acceptKeys (runOps dupDB [Op.assignRouting ("xx") rOk, Op.assignRouting ("xx") rOk])).Nodup ∧
    (routingKeys (runOps dupDB [Op.assignRouting ("xx") rOk, Op.assignRouting ("xx") rOk])).Nodup :=
  upsert_keys_unique_after_accept_and_routing dupDB
    [Op.assignRouting ("xx") rOk, Op.assignRouting ("xx") rOk]
    (by unfold collWf; exact ⟨by decide, by decide⟩) (by decide) (by decide) (by decide)
